import Mathlib

set_option maxRecDepth 100000

/-!
Shallow embedding of the SMS expense extraction engine of this repository.

The authoritative source for the pattern library, the amount parser, the
merchant normalizer and the extraction loop is `src/expense_parser.py`
(class `ExpenseParser`).  Python regular expressions are embedded as an
abstract syntax tree `RE` together with a backtracking matcher `mtch` that
mirrors the leftmost, priority-ordered search of CPython's `re.search`
(alternation prefers the left branch, greedy repetition prefers longer,
lazy repetition prefers shorter, `.` does not match a newline, `$` matches
at the end of the input or just before a final newline, and matching is
case-insensitive for ASCII letters, which models the `re.IGNORECASE` flag
that `parse_message` passes for every pattern).

The ownership filter, the OTP / deposit suppression and the currency
resolution that the repository's tests (`test_parser_improvements.py`) and
callers (`extract_from_txt_export.py`, `update_expenses.py`) exercise are
not present in the checked-in `expense_parser.py`; those components are
modelled from the specification and are marked as such below.
-/

/-- Python whitespace: the characters stripped by `str.strip()` and matched
by the regex class `\s` (for the ASCII inputs considered here). -/
def isPySpace (c : Char) : Bool :=
  c == ' ' || c == '\t' || c == '\n' || c == '\r' || c == '\x0b' || c == '\x0c'

/-- ASCII decimal digit, the regex class `\d` on the ASCII inputs used here. -/
def isDigitCh (c : Char) : Bool :=
  '0' ≤ c && c ≤ '9'

/-- ASCII lower-casing used to model `re.IGNORECASE` comparison of pattern
literals (the cased literals of all patterns are plain Latin letters). -/
def lcChar (c : Char) : Char :=
  if 65 ≤ c.toNat ∧ c.toNat ≤ 90 then Char.ofNat (c.toNat + 32) else c

/-- Character classes appearing in the patterns of `ExpenseParser.PATTERNS`. -/
inductive CCls where
  | dot        -- `.`  : any character except a newline (no re.DOTALL is used)
  | ws         -- `\s`
  | digit      -- `\d`
  | digitComma -- `[\d,]`
  | curSym     -- `[\$₹€£¥]`
  | anyNL      -- any character including newline (used only by the
               -- spec-modelled newline-tolerant transfer template)
deriving DecidableEq

/-- Membership test of a character class. -/
def CCls.mem : CCls → Char → Bool
  | .dot, c => !(c == '\n')
  | .ws, c => isPySpace c
  | .digit, c => isDigitCh c
  | .digitComma, c => isDigitCh c || c == ','
  | .curSym, c => c == '$' || c == '₹' || c == '€' || c == '£' || c == '¥'
  | .anyNL, _ => true

/-- Regular expression syntax: the fragment used by `ExpenseParser.PATTERNS`. -/
inductive RE where
  | eps
  | lit (c : Char)
  | cls (k : CCls)
  | seq (a b : RE)
  | alt (a b : RE)
  | star (a : RE) (lz : Bool)
  | group (n : Nat) (a : RE)
  | eos          -- `$` (no re.MULTILINE is used)
deriving DecidableEq

/-- Captured groups 1 and 2 (no pattern of the source has more). -/
abbrev Caps := Option (List Char) × Option (List Char)

/-- Record a captured span for group `n`; other indices are ignored. -/
def setG (n : Nat) (v : List Char) (cp : Caps) : Caps :=
  if n = 1 then (some v, cp.2) else if n = 2 then (cp.1, some v) else cp

/-- Backtracking matcher in continuation-passing style.  `mtch fuel r s cp k`
attempts to match `r` at the head of `s` with current captures `cp` and calls
`k` with the remaining input and captures on each candidate parse, exploring
candidates in CPython's priority order and returning the first success.  The
fuel bounds the recursion depth; every caller supplies more than enough. -/
def mtch : Nat → RE → List Char → Caps → (List Char → Caps → Option Caps) → Option Caps
  | 0, _, _, _, _ => none
  | Nat.succ f, r, s, cp, k =>
    match r with
    | .eps => k s cp
    | .lit c =>
      match s with
      | [] => none
      | d :: rest => if lcChar d = lcChar c then k rest cp else none
    | .cls kc =>
      match s with
      | [] => none
      | d :: rest => if kc.mem d then k rest cp else none
    | .seq a b => mtch f a s cp (fun s2 cp2 => mtch f b s2 cp2 k)
    | .alt a b =>
      match mtch f a s cp k with
      | some r2 => some r2
      | none => mtch f b s cp k
    | .star a lz =>
      match lz with
      | true =>
        match k s cp with
        | some r2 => some r2
        | none =>
          mtch f a s cp (fun s2 cp2 =>
            if s2.length < s.length then mtch f (RE.star a true) s2 cp2 k else none)
      | false =>
        match mtch f a s cp (fun s2 cp2 =>
            if s2.length < s.length then mtch f (RE.star a false) s2 cp2 k else none) with
        | some r2 => some r2
        | none => k s cp
    | .group n a =>
      mtch f a s cp (fun s2 cp2 => k s2 (setG n (s.take (s.length - s2.length)) cp2))
    | .eos =>
      match s with
      | [] => k s cp
      | ['\n'] => k s cp
      | _ => none

/-- Fuel that certainly dominates the recursion depth of `mtch` for our
patterns: depth is bounded by pattern size plus a small multiple of the
consumed input length. -/
def fuelFor (s : List Char) : Nat := 2000 + 80 * s.length

/-- Leftmost search: try a full match at each start position in turn, exactly
as `re.search` does, and return the captures of the first success. -/
def searchGo (fu : Nat) (r : RE) : List Char → Option Caps
  | [] => mtch fu r [] (none, none) (fun _ cp => some cp)
  | s@(_ :: rest) =>
    match mtch fu r s (none, none) (fun _ cp => some cp) with
    | some cp => some cp
    | none => searchGo fu r rest

/-- `reSearch r s` models `re.search(r, s, re.IGNORECASE)`, returning the
captures on success. -/
def reSearch (r : RE) (s : List Char) : Option Caps :=
  searchGo (fuelFor s) r s

/-- Concatenation of a list of regexes. -/
def rcat (l : List RE) : RE := l.foldr RE.seq RE.eps

/-- Literal string (each character matched case-insensitively). -/
def rstr (s : String) : RE := rcat (s.data.map RE.lit)

/-- Ordered alternation `a|b|c|...` (first alternative preferred). -/
def ralts (hd : RE) (tl : List RE) : RE := tl.foldl RE.alt hd

/-- Greedy option `r?`. -/
def ropt (r : RE) : RE := RE.alt r RE.eps

/-- Greedy plus `r+`. -/
def rplus (r : RE) : RE := RE.seq r (RE.star r false)

/-- Lazy plus `r+?`. -/
def rplusL (r : RE) : RE := RE.seq r (RE.star r true)

/-- `\s*` -/
def ws0 : RE := RE.star (RE.cls .ws) false

/-- `\s+` -/
def ws1 : RE := rplus (RE.cls .ws)

/-- `.*?` -/
def dotL : RE := RE.star (RE.cls .dot) true

/-- Group 1 of every pattern: `([\d,]+\.?\d*)`. -/
def amountG : RE :=
  RE.group 1 (rcat [rplus (RE.cls .digitComma), ropt (RE.lit '.'), RE.star (RE.cls .digit) false])

/-- `(?:SAR|SR|ريال)` -/
def curWord : RE := ralts (rstr ("SAR")) [rstr ("SR"), rstr ("ريال")]

/-- `(?:rs\.?|inr|usd|sar|sr)?` -/
def rsOpt : RE :=
  ropt (ralts (RE.seq (rstr ("rs")) (ropt (RE.lit '.')))
    [rstr ("inr"), rstr ("usd"), rstr ("sar"), rstr ("sr")])

/-- `(?:at|on|to|for)` -/
def atOnToFor : RE := ralts (rstr ("at")) [rstr ("on"), rstr ("to"), rstr ("for")]

/-- `(?:\s+on|\.|$)` -/
def tailOnDotEnd : RE := ralts (RE.seq ws1 (rstr ("on"))) [RE.lit '.', RE.eos]

/-- Pattern 0 of `ExpenseParser.PATTERNS`:
`شراء.*?مبلغ:?\s*(?:SAR|SR|ريال)?\s*([\d,]+\.?\d*)\s*(?:لدى|لدي):?\s*(.+?)(?:\s+في|\n|$)` -/
def P0 : RE :=
  rcat [rstr ("شراء"), dotL, rstr ("مبلغ"), ropt (RE.lit ':'), ws0, ropt curWord, ws0,
    amountG, ws0, ralts (rstr ("لدى")) [rstr ("لدي")], ropt (RE.lit ':'), ws0,
    RE.group 2 (rplusL (RE.cls .dot)), ralts (RE.seq ws1 (rstr ("في"))) [RE.lit '\n', RE.eos]]

/-- Pattern 1: `حوالة.*?(?:مبلغ|المبلغ):?\s*(?:SAR|SR|ريال)?\s*([\d,]+\.?\d*)` -/
def P1 : RE :=
  rcat [rstr ("حوالة"), dotL, ralts (rstr ("مبلغ")) [rstr ("المبلغ")], ropt (RE.lit ':'),
    ws0, ropt curWord, ws0, amountG]

/-- Pattern 2:
`(?:Amount|مبلغ):?\s*(?:SAR|SR|ريال)?\s*([\d,]+\.?\d*)\s*(?:SAR|SR|ريال)?.*?(?:At|لدى|لدي):?\s*(.+?)(?:\s+A/C|\n|$)` -/
def P2 : RE :=
  rcat [ralts (rstr ("Amount")) [rstr ("مبلغ")], ropt (RE.lit ':'), ws0, ropt curWord, ws0,
    amountG, ws0, ropt curWord, dotL, ralts (rstr ("At")) [rstr ("لدى"), rstr ("لدي")],
    ropt (RE.lit ':'), ws0, RE.group 2 (rplusL (RE.cls .dot)),
    ralts (RE.seq ws1 (rstr ("A/C"))) [RE.lit '\n', RE.eos]]

/-- Pattern 3:
`(?:spent|paid|debited|charged)\s*(?:rs\.?|inr|usd|sar|sr)?\s*[\$₹€£¥]?\s*([\d,]+\.?\d*)\s*(?:at|on|to|for)?\s*(.+?)(?:\s+on|\.|$)` -/
def P3 : RE :=
  rcat [ralts (rstr ("spent")) [rstr ("paid"), rstr ("debited"), rstr ("charged")], ws0,
    rsOpt, ws0, ropt (RE.cls .curSym), ws0, amountG, ws0, ropt atOnToFor, ws0,
    RE.group 2 (rplusL (RE.cls .dot)), tailOnDotEnd]

/-- Pattern 4:
`(?:rs\.?|inr|usd|sar|sr)?\s*[\$₹€£¥]?\s*([\d,]+\.?\d*)\s*(?:debited|withdrawn|paid|spent).*?(?:for|at|to)\s*(.+?)(?:\s+on|\.|$)` -/
def P4 : RE :=
  rcat [rsOpt, ws0, ropt (RE.cls .curSym), ws0, amountG, ws0,
    ralts (rstr ("debited")) [rstr ("withdrawn"), rstr ("paid"), rstr ("spent")], dotL,
    ralts (rstr ("for")) [rstr ("at"), rstr ("to")], ws0,
    RE.group 2 (rplusL (RE.cls .dot)), tailOnDotEnd]

/-- Pattern 5:
`card.*?(?:used|charged|debited).*?(?:for|of)\s*(?:rs\.?|inr|usd|sar|sr)?\s*[\$₹€£¥]?\s*([\d,]+\.?\d*)\s*(?:at|on|to|for)\s*(.+?)(?:\s+on|\.|$)` -/
def P5 : RE :=
  rcat [rstr ("card"), dotL, ralts (rstr ("used")) [rstr ("charged"), rstr ("debited")],
    dotL, ralts (rstr ("for")) [rstr ("of")], ws0, rsOpt, ws0, ropt (RE.cls .curSym), ws0,
    amountG, ws0, atOnToFor, ws0, RE.group 2 (rplusL (RE.cls .dot)), tailOnDotEnd]

/-- Pattern 6:
`transaction.*?(?:of|for)\s*(?:rs\.?|inr|usd|sar|sr)?\s*[\$₹€£¥]?\s*([\d,]+\.?\d*)\s*(?:at|on|to|for)?\s*(.+?)(?:\s+on|\.|$)` -/
def P6 : RE :=
  rcat [rstr ("transaction"), dotL, ralts (rstr ("of")) [rstr ("for")], ws0, rsOpt, ws0,
    ropt (RE.cls .curSym), ws0, amountG, ws0, ropt atOnToFor, ws0,
    RE.group 2 (rplusL (RE.cls .dot)), tailOnDotEnd]

/-- Pattern 7:
`purchase.*?(?:of|for)\s*(?:rs\.?|inr|usd|sar|sr)?\s*[\$₹€£¥]?\s*([\d,]+\.?\d*)\s*(?:at|on|to|for)?\s*(.+?)(?:\s+on|\.|$)` -/
def P7 : RE :=
  rcat [rstr ("purchase"), dotL, ralts (rstr ("of")) [rstr ("for")], ws0, rsOpt, ws0,
    ropt (RE.cls .curSym), ws0, amountG, ws0, ropt atOnToFor, ws0,
    RE.group 2 (rplusL (RE.cls .dot)), tailOnDotEnd]

/-- Pattern 8:
`(?:atm|cash).*?(?:withdrawal|withdrawn)\s*(?:of)?\s*(?:rs\.?|inr|usd|sar|sr)?\s*[\$₹€£¥]?\s*([\d,]+\.?\d*)` -/
def P8 : RE :=
  rcat [ralts (rstr ("atm")) [rstr ("cash")], dotL,
    ralts (rstr ("withdrawal")) [rstr ("withdrawn")], ws0, ropt (rstr ("of")), ws0,
    rsOpt, ws0, ropt (RE.cls .curSym), ws0, amountG]

/-- Pattern 9:
`(?:sent|transferred)\s*(?:rs\.?|inr|usd|sar|sr)?\s*[\$₹€£¥]?\s*([\d,]+\.?\d*)\s*to\s*(.+?)\s*via` -/
def P9 : RE :=
  rcat [ralts (rstr ("sent")) [rstr ("transferred")], ws0, rsOpt, ws0,
    ropt (RE.cls .curSym), ws0, amountG, ws0, rstr ("to"), ws0,
    RE.group 2 (rplusL (RE.cls .dot)), ws0, rstr ("via")]

/-- Drop Python whitespace from both ends, modelling `str.strip()` (the
inputs considered use only ASCII whitespace). -/
def pyStrip (l : List Char) : List Char :=
  ((l.dropWhile isPySpace).reverse.dropWhile isPySpace).reverse

/-- Numeric value of a digit list, most significant first. -/
def digitsVal (l : List Char) : Nat :=
  l.foldl (fun a c => 10 * a + (c.toNat - 48)) 0

/-- Exact rational value of the decimal literal `[-]d1.d2 e[-]eDigits`
(built with `mkRat` over integer arithmetic so that it evaluates by
kernel reduction). -/
def floatVal (neg : Bool) (d1 d2 : List Char) (eNeg : Bool) (eDigits : List Char) : ℚ :=
  let m : Nat := digitsVal d1 * 10 ^ d2.length + digitsVal d2
  let e : Nat := digitsVal eDigits
  let num : ℤ := if neg then -(m : ℤ) else (m : ℤ)
  if eNeg then mkRat num (10 ^ (d2.length + e)) else mkRat (num * 10 ^ e) (10 ^ d2.length)

/-- Exponent suffix of a Python float literal: either empty or
`(e|E)[+-]?digits`, applied to the parsed mantissa. -/
def parseExp (neg : Bool) (d1 d2 : List Char) (l : List Char) : Option ℚ :=
  match l with
  | [] => some (floatVal neg d1 d2 false [])
  | c :: r =>
    if c == 'e' || c == 'E' then
      let (eNeg, r2) : Bool × List Char :=
        match r with
        | '+' :: r3 => (false, r3)
        | '-' :: r3 => (true, r3)
        | _ => (false, r)
      if (r2.takeWhile isDigitCh).isEmpty || !(r2.dropWhile isDigitCh).isEmpty then none
      else some (floatVal neg d1 d2 eNeg (r2.takeWhile isDigitCh))
    else none

/-- Unsigned body of a Python float literal: `digits`, `digits.`, `digits.digits`
or `.digits`, with an optional exponent. -/
def parseBody (neg : Bool) (l : List Char) : Option ℚ :=
  let d1 := l.takeWhile isDigitCh
  match l.dropWhile isDigitCh with
  | '.' :: r2 =>
    if d1.isEmpty && (r2.takeWhile isDigitCh).isEmpty then none
    else parseExp neg d1 (r2.takeWhile isDigitCh) (r2.dropWhile isDigitCh)
  | r1 => if d1.isEmpty then none else parseExp neg d1 [] r1

/-- Model of Python `float(str)` restricted to finite decimal literals:
optional surrounding whitespace, optional sign, digits with an optional
fractional part and an optional exponent.  (`inf`/`nan` spellings and
digit-group underscores are outside the modelled fragment; no input reachable
from the parser's captures or from the claims uses them.) -/
def pyFloat (l : List Char) : Option ℚ :=
  match pyStrip l with
  | '+' :: r => parseBody false r
  | '-' :: r => parseBody true r
  | r => parseBody false r

/-- The character class removed by `_parse_amount`: `re.sub(r'[,\$₹€£¥]', '', s)`. -/
def stripCur (l : List Char) : List Char :=
  l.filter (fun c => !(c == ',' || c == '$' || c == '₹' || c == '€' || c == '£' || c == '¥'))

/-- `ExpenseParser._parse_amount`: strip commas/currency symbols, convert with
`float`, return the amount only if it is positive; `None` on a parse failure
(the `except (ValueError, AttributeError)` branch) and on non-positive values.
The argument is an `Option` because `match.group(i)` returns `None` for a
non-participating group. -/
def parse_amount : Option (List Char) → Option ℚ
  | none => none
  | some s =>
    match pyFloat (stripCur s) with
    | none => none
    | some a => if a > 0 then some a else none

/-- Modelled Python exceptions relevant to `_parse_amount`. -/
inductive PyExc where
  | valueError
  | typeError
deriving DecidableEq

/-- Exception-explicit model of `float(cleaned)`: raises `ValueError` when the
text is not a float literal. -/
def pyFloatE (l : List Char) : Except PyExc ℚ :=
  match pyFloat l with
  | some q => .ok q
  | none => .error .valueError

/-- Exception-explicit `_parse_amount`.  A `None` argument makes
`re.sub(..., None)` raise `TypeError`, which the surrounding
`except (ValueError, AttributeError)` clause does NOT catch; a `ValueError`
from `float` is caught and turned into `None`. -/
def parse_amountE : Option (List Char) → Except PyExc (Option ℚ)
  | none => .error .typeError
  | some s =>
    match pyFloatE (stripCur s) with
    | .error .valueError => .ok none
    | .error e => .error e
    | .ok a => .ok (if a > 0 then some a else none)

/-- Characters stripped by `merchant.strip('.,- ')`. -/
def stripSet (c : Char) : Bool :=
  c == '.' || c == ',' || c == '-' || c == ' '

/-- `merchant.strip('.,- ')`. -/
def strip4 (l : List Char) : List Char :=
  ((l.dropWhile stripSet).reverse.dropWhile stripSet).reverse

/-- `merchant.upper()`, modelled on ASCII letters via `Char.toUpper` (the
Arabic letters appearing in captures have no case). -/
def upperA (l : List Char) : List Char := l.map Char.toUpper

/-- `merchant[:50]` applied when `len(merchant) > 50`. -/
def trunc50 (l : List Char) : List Char :=
  if l.length > 50 then l.take 50 else l

/-- First `)` on the current line: scanning for the lazy `\(.*?\)` body, a
newline before any `)` makes the match fail because `.` does not cross it.
Returns the suffix after the `)`. -/
def findClose : List Char → Option (List Char)
  | [] => none
  | c :: r => if c == ')' then some r else if c == '\n' then none else findClose r

/-- Attempt of `\s*\(.*?\)\s*` at the head of the input (the greedy leading
`\s*` can only succeed at the maximal whitespace run, since a backtracked
position holds a whitespace character, never `(`).  Returns the suffix after
the match, with the greedy trailing `\s*` consumed. -/
def sub1At (l : List Char) : Option (List Char) :=
  match l.dropWhile isPySpace with
  | '(' :: r =>
    match findClose r with
    | some r2 => some (r2.dropWhile isPySpace)
    | none => none
  | _ => none

/-- Scan of `re.sub(r'\s*\(.*?\)\s*', '', merchant)`: at each position try the
pattern; on a match, drop it and continue after it.  Fuel is the input length
(every match consumes at least two characters). -/
def sub1Go : Nat → List Char → List Char
  | 0, l => l
  | _ + 1, [] => []
  | f + 1, c :: r =>
    match sub1At (c :: r) with
    | some r2 => sub1Go f r2
    | none => c :: sub1Go f r

/-- `re.sub(r'\s*\(.*?\)\s*', '', merchant)`. -/
def sub1 (l : List Char) : List Char := sub1Go l.length l

/-- Attempt of `\s+on\s+\d{2}.*` at the head of the input, case-SENSITIVELY:
the source passes `re.IGNORECASE` as the third positional argument of
`re.sub`, which is the `count` parameter (`re.IGNORECASE == 2`), so the flag
is not applied and at most two occurrences are replaced.  Both greedy `\s+`
runs only succeed maximally (backtracked positions hold whitespace), and the
final `.*` consumes to the end of the line. -/
def sub2At (l : List Char) : Option (List Char) :=
  if (l.takeWhile isPySpace).isEmpty then none
  else
    match l.dropWhile isPySpace with
    | 'o' :: 'n' :: r2 =>
      if (r2.takeWhile isPySpace).isEmpty then none
      else
        match r2.dropWhile isPySpace with
        | a :: b :: r4 =>
          if isDigitCh a && isDigitCh b then some (r4.dropWhile (fun c => !(c == '\n')))
          else none
        | _ => none
    | _ => none

/-- Scan of `re.sub(r'\s+on\s+\d{2}.*', '', merchant, re.IGNORECASE)`: the
`cnt` argument counts the remaining replacements (two, see `sub2At`). -/
def sub2Go : Nat → Nat → List Char → List Char
  | 0, _, l => l
  | _ + 1, 0, l => l
  | _ + 1, _, [] => []
  | f + 1, cnt + 1, c :: r =>
    match sub2At (c :: r) with
    | some r2 => sub2Go f cnt r2
    | none => c :: sub2Go f (cnt + 1) r

/-- `re.sub(r'\s+on\s+\d{2}.*', '', merchant, re.IGNORECASE)` (see `sub2At`
for the `count`/`flags` confusion faithfully modelled here). -/
def sub2 (l : List Char) : List Char := sub2Go l.length 2 l

/-- The normalization chain of `_clean_merchant_name` after the emptiness
guard: parentheses removal, date-suffix removal, punctuation strip,
upper-casing, truncation to 50 characters. -/
def cleanCore (l : List Char) : List Char :=
  trunc50 (upperA (strip4 (sub2 (sub1 l))))

/-- `ExpenseParser._clean_merchant_name` on a string argument. -/
def clean_merchant_name (s : String) : String :=
  if s = "" then "Unknown" else String.mk (cleanCore s.data)

/-- `_clean_merchant_name` as invoked by `parse_message` on `match.group(g)`,
whose value may be `None` (falsy, so the guard returns the sentinel). -/
def cleanG : Option (List Char) → String
  | none => "Unknown"
  | some l => clean_merchant_name (String.mk l)

/-- One pattern entry of `ExpenseParser.PATTERNS` (`is_transfer` defaults to
`False` via `pattern_info.get('is_transfer', False)`). -/
structure PatternInfo where
  pattern : RE
  amount_group : Nat
  merchant_group : Option Nat
  default_merchant : Option String
  is_transfer : Bool
deriving DecidableEq

/-- The ordered pattern list `ExpenseParser.PATTERNS` (fields: pattern,
amount_group, merchant_group, default_merchant, is_transfer). -/
def PATTERNS : List PatternInfo :=
  [⟨P0, 1, some 2, none, false⟩,
   ⟨P1, 1, none, some ("Transfer"), false⟩,
   ⟨P2, 1, some 2, none, false⟩,
   ⟨P3, 1, some 2, none, false⟩,
   ⟨P4, 1, some 2, none, false⟩,
   ⟨P5, 1, some 2, none, false⟩,
   ⟨P6, 1, some 2, none, false⟩,
   ⟨P7, 1, some 2, none, false⟩,
   ⟨P8, 1, none, some ("ATM Withdrawal"), false⟩,
   ⟨P9, 1, some 2, none, true⟩]

/-- `match.group(n)` for the two capture groups of our patterns. -/
def getGroup (cp : Caps) : Nat → Option (List Char)
  | 1 => cp.1
  | 2 => cp.2
  | _ => none

/-- Python truthiness of the `merchant` variable (`None` and `''` are falsy). -/
def truthy : Option String → Bool
  | none => false
  | some s => !(s == "")

/-- `merchant or 'Unknown'`. -/
def pyOr (m : Option String) (d : String) : String :=
  match m with
  | some s => if s == "" then d else s
  | none => d

/-- The result dictionary built by `ExpenseParser.parse_message`. -/
structure ParsedTxn where
  amount : ℚ
  merchant : String
  transaction_type : String
  raw_message : String
  matched_pattern : RE
deriving DecidableEq

/-- The body of one iteration of the pattern loop of `parse_message`: search
the pattern, parse the amount (`continue`, i.e. `none`, when it is missing or
non-positive), normalize the merchant, fall back to the rule's default label
and then to `'Unknown'`, and build the result dictionary. -/
def ruleResult (pi : PatternInfo) (msg : List Char) : Option ParsedTxn :=
  match reSearch pi.pattern msg with
  | none => none
  | some caps =>
    match parse_amount (getGroup caps pi.amount_group) with
    | none => none
    | some amount =>
      if amount ≤ 0 then none
      else
        let merchant0 : Option String := pi.merchant_group.map (fun g => cleanG (getGroup caps g))
        let merchant1 : Option String :=
          if !truthy merchant0 then
            match pi.default_merchant with
            | some d => some d
            | none => merchant0
          else merchant0
        some ⟨amount, pyOr merchant1 ("Unknown"),
          (if pi.is_transfer then "transfer" else "expense"),
          String.mk msg, pi.pattern⟩

/-- The pattern loop of `parse_message`: first rule whose `ruleResult` is not
`none` (a structural match whose amount is missing or non-positive `continue`s
to the next rule). -/
def tryPatterns : List PatternInfo → List Char → Option ParsedTxn
  | [], _ => none
  | pi :: rest, msg =>
    match ruleResult pi msg with
    | some t => some t
    | none => tryPatterns rest msg

/-- `ExpenseParser.parse_message`: `None` for a falsy (empty) message, else
strip the message and run the pattern loop. -/
def parse_message (message : String) : Option ParsedTxn :=
  if message = "" then none
  else tryPatterns PATTERNS (pyStrip message.data)

/-- Exception-explicit variant of `ruleResult` (see `parse_amountE`; the
merchant path raises nothing: `_clean_merchant_name` guards falsy input). -/
def ruleResultE (pi : PatternInfo) (msg : List Char) : Except PyExc (Option ParsedTxn)  :=
  match reSearch pi.pattern msg with
  | none => .ok none
  | some caps =>
    match parse_amountE (getGroup caps pi.amount_group) with
    | .error e => .error e
    | .ok none => .ok none
    | .ok (some amount) =>
      if amount ≤ 0 then .ok none
      else
        let merchant0 : Option String := pi.merchant_group.map (fun g => cleanG (getGroup caps g))
        let merchant1 : Option String :=
          if !truthy merchant0 then
            match pi.default_merchant with
            | some d => some d
            | none => merchant0
          else merchant0
        .ok (some ⟨amount, pyOr merchant1 ("Unknown"),
          (if pi.is_transfer then "transfer" else "expense"),
          String.mk msg, pi.pattern⟩)

/-- Exception-explicit pattern loop. -/
def tryPatternsE : List PatternInfo → List Char → Except PyExc (Option ParsedTxn)
  | [], _ => .ok none
  | pi :: rest, msg =>
    match ruleResultE pi msg with
    | .error e => .error e
    | .ok (some t) => .ok (some t)
    | .ok none => tryPatternsE rest msg

/-- Exception-explicit `parse_message`. -/
def parse_messageE (message : String) : Except PyExc (Option ParsedTxn) :=
  if message = "" then .ok none
  else tryPatternsE PATTERNS (pyStrip message.data)

/-! ## Spec-modelled extraction pipeline

The improved extraction engine that the repository's tests
(`test_parser_improvements.py` constructs `ExpenseParser(my_accounts=...)`
and reads `result['currency']`) and callers exercise is not part of the
checked-in `src/expense_parser.py` (whose `__init__` takes no configuration
and whose result dictionary has no `currency` key).  The components below
are therefore modelled from the specification (sections 4.2, 4.4 and 4.5)
and reuse the source's pattern library, amount parser and merchant
normalizer where the source provides them. -/

/-- Transaction kind of the spec's `ExtractionResult`. -/
inductive TxnKind where
  | Expense
  | Transfer
deriving DecidableEq

/-- Suppression reasons of the spec's error-handling taxonomy (section 7). -/
inductive SuppressReason where
  | otp
  | deposit_credit
  | internal_transfer
  | wallet_topup
  | invalid_amount
deriving DecidableEq

/-- The spec's `ExtractionResult` discriminated union. -/
inductive ExtractionResult where
  | NoMatch
  | Suppressed (reason : SuppressReason)
  | Transaction (amount : ℚ) (currency : String) (merchant : String) (kind : TxnKind)
deriving DecidableEq

/-- The spec's `OwnershipConfig`: configured account and wallet identifiers
(compare `MY_ACCOUNTS` in `config.py`). -/
structure OwnershipConfig where
  my_account_identifiers : List String
  my_wallet_identifiers : List String
deriving DecidableEq

/-- Case-insensitive prefix test on character lists. -/
def startsW : List Char → List Char → Bool
  | [], _ => true
  | _ :: _, [] => false
  | a :: as, b :: bs => lcChar a == lcChar b && startsW as bs

/-- Case-insensitive containment of `needle` in `hay`. -/
def containsCI (needle : List Char) : List Char → Bool
  | [] => startsW needle []
  | hay@(_ :: t) => startsW needle hay || containsCI needle t

/-- Containment of a marker string in a message, case-insensitively. -/
def hasSub (msg : List Char) (pat : String) : Bool :=
  containsCI pat.data msg

/-- Lengths of the maximal runs of ASCII digits in a text. -/
def digitRuns : List Char → Nat → List Nat
  | [], cur => if cur = 0 then [] else [cur]
  | c :: r, cur =>
    if isDigitCh c then digitRuns r (cur + 1)
    else if cur = 0 then digitRuns r 0 else cur :: digitRuns r 0

/-- Modelled from the spec: a "short numeric code" for the OTP rule is a
maximal digit run of four to eight digits. -/
def hasShortCode (msg : List Char) : Bool :=
  (digitRuns msg 0).any (fun n => 4 ≤ n && n ≤ 8)

/-- Modelled from the spec: the OTP/verification-code cue of classifier rule
(1) in section 4.4 — "a short numeric code paired with a 'do not share' or
'verification' cue", in English or Arabic (the missing improved parser's OTP
check; the checked-in parser has none). -/
def hasOTPCue (msg : List Char) : Bool :=
  hasShortCode msg &&
    (hasSub msg ("do not share") || hasSub msg ("لا تشارك") ||
     hasSub msg ("otp") || hasSub msg ("verification") || hasSub msg ("رمز التحقق"))

/-- Modelled from the spec: classifier rule (2) in section 4.4 — "a pure
deposit/credit/incoming-funds notification with no accompanying
purchase/transfer verb" (the missing improved parser's deposit check). -/
def isPureDeposit (msg : List Char) : Bool :=
  (hasSub msg ("إيداع") || hasSub msg ("واردة") || hasSub msg ("deposit") ||
   hasSub msg ("credited")) &&
  !(hasSub msg ("شراء") || hasSub msg ("حوالة") || hasSub msg ("purchase") ||
    hasSub msg ("spent") || hasSub msg ("paid") || hasSub msg ("debited") ||
    hasSub msg ("charged") || hasSub msg ("sent") || hasSub msg ("transferred") ||
    hasSub msg ("withdraw"))

/-- Modelled from the spec (section 4.2): the explicit currency marker of a
message, scanned in the order of the repository's only currency-detection
code (`add_currency_column.py`): SAR markers, then `$`/USD, `€`/EUR, `£`/GBP,
`₹`/INR. -/
def markerOf (msg : List Char) : Option String :=
  if hasSub msg ("sar") || hasSub msg ("ريال") || hasSub msg ("sr") then some ("SAR")
  else if hasSub msg ("$") || hasSub msg ("usd") then some ("USD")
  else if hasSub msg ("€") || hasSub msg ("eur") then some ("EUR")
  else if hasSub msg ("£") || hasSub msg ("gbp") then some ("GBP")
  else if hasSub msg ("₹") || hasSub msg ("inr") || hasSub msg ("rs.") then some ("INR")
  else none

/-- Modelled from the spec: explicit marker in the message wins, otherwise the
configured home currency (section 4.2 currency precedence; the group-1 capture
`([\d,]+\.?\d*)` never contains a marker, so the token level of the precedence
is vacuous). -/
def resolveCurrency (msg : List Char) (home : String) : String :=
  (markerOf msg).getD home

/-- Split a text into its lines (separator `\n`). -/
def splitLines : List Char → List (List Char)
  | [] => [[]]
  | c :: r =>
    if c == '\n' then [] :: splitLines r
    else
      match splitLines r with
      | [] => [[c]]
      | ln :: rest => (c :: ln) :: rest

/-- Modelled from the spec: the value of a labelled field — a line starting
with the label, optionally followed by `:`, the remainder being the captured
identifier (covers both `من:3057` and the colon-less `منX3001` shape). -/
def fieldOf (label : List Char) (line : List Char) : Option (List Char) :=
  if startsW label line then
    let r := line.drop label.length
    some (match r with
          | ':' :: r2 => r2
          | _ => r)
  else none

/-- First labelled field of a message. -/
def firstLeg (label : List Char) (msg : List Char) : Option (List Char) :=
  (splitLines msg).findSome? (fieldOf label)

/-- Modelled from the spec: the "from" leg captured by the transfer template. -/
def fromLeg (msg : List Char) : Option (List Char) :=
  firstLeg (("من").data) msg

/-- Modelled from the spec: the "to" leg captured by the transfer template. -/
def toLeg (msg : List Char) : Option (List Char) :=
  firstLeg (("الى").data) msg

/-- Modelled from the spec (section 4.5): a leg resolves to the configuration
when some configured identifier is contained, case-insensitively, in the
captured field. -/
def resolvesAny (cfg : OwnershipConfig) (v : List Char) : Bool :=
  (cfg.my_account_identifiers ++ cfg.my_wallet_identifiers).any
    (fun id => !(id == "") && containsCI id.data v)

/-- Modelled from the spec (section 4.5): a merchant field that resolves to a
configured wallet identifier marks a wallet top-up. -/
def resolvesWallet (cfg : OwnershipConfig) (m : String) : Bool :=
  cfg.my_wallet_identifiers.any (fun id => !(id == "") && containsCI id.data m.data)

/-- One rule of the spec-modelled pattern library: the source's pattern entry
plus the spec's transaction-kind hint. -/
structure SpecRule where
  pattern : RE
  amount_group : Nat
  merchant_group : Option Nat
  default_merchant : Option String
  kind : TxnKind
deriving DecidableEq

/-- Modelled from the spec (section 4.1, template 2): the transfer template —
a transfer keyword (`حوالة`) with a labelled amount, tolerating embedded
newlines between the keyword and the amount field.  The checked-in source's
corresponding pattern `P1` cannot cross line breaks (its `.*?` stops at a
newline) and carries no transfer kind hint; the spec requires both. -/
def TRrule : RE :=
  rcat [rstr ("حوالة"), RE.star (RE.cls .anyNL) true,
    ralts (rstr ("مبلغ")) [rstr ("المبلغ")], ropt (RE.lit ':'), ws0, ropt curWord, ws0, amountG]

/-- The spec-modelled ordered rule library: the source's `PATTERNS` in
declaration order, with the transfer entry realized per the spec's template 2
and the spec's kind hints (`Transfer` for the transfer and sent-via rules). -/
def STRULES : List SpecRule :=
  [⟨P0, 1, some 2, none, .Expense⟩,
   ⟨TRrule, 1, none, some ("Transfer"), .Transfer⟩,
   ⟨P2, 1, some 2, none, .Expense⟩,
   ⟨P3, 1, some 2, none, .Expense⟩,
   ⟨P4, 1, some 2, none, .Expense⟩,
   ⟨P5, 1, some 2, none, .Expense⟩,
   ⟨P6, 1, some 2, none, .Expense⟩,
   ⟨P7, 1, some 2, none, .Expense⟩,
   ⟨P8, 1, none, some ("ATM Withdrawal"), .Expense⟩,
   ⟨P9, 1, some 2, none, .Transfer⟩]

/-- A structurally matched candidate: normalized amount and merchant plus the
rule's kind hint. -/
structure Candidate where
  amount : ℚ
  merchant : String
  kind : TxnKind
deriving DecidableEq

/-- One rule attempt of the spec-modelled pipeline (same normalization as the
source's loop body: `parse_amount`, `cleanG`, default label, sentinel). -/
def candResult (sr : SpecRule) (msg : List Char) : Option Candidate :=
  match reSearch sr.pattern msg with
  | none => none
  | some caps =>
    match parse_amount (getGroup caps sr.amount_group) with
    | none => none
    | some amount =>
      if amount ≤ 0 then none
      else
        let merchant0 : Option String := sr.merchant_group.map (fun g => cleanG (getGroup caps g))
        let merchant1 : Option String :=
          if !truthy merchant0 then
            match sr.default_merchant with
            | some d => some d
            | none => merchant0
          else merchant0
        some ⟨amount, pyOr merchant1 ("Unknown"), sr.kind⟩

/-- First-match-wins over the spec-modelled rule library. -/
def firstCandidate : List SpecRule → List Char → Option Candidate
  | [], _ => none
  | sr :: rest, msg =>
    match candResult sr msg with
    | some c => some c
    | none => firstCandidate rest msg

/-- Modelled from the spec: the extraction pipeline `extract` (section 4.6).
Classifier exclusions (section 4.4) run in their stated order — the OTP rule
and the deposit rule apply to the raw message regardless of amount presence
(section 8), invalid amounts make the rule loop continue as in the source —
then the ownership filter (section 4.5) vetoes transfers whose two legs both
resolve to configured identifiers and expense candidates whose merchant is a
configured wallet, and the currency is resolved per section 4.2. -/
def extract (cfg : OwnershipConfig) (home : String) (message : String) : ExtractionResult :=
  let msg := pyStrip message.data
  if hasOTPCue msg then .Suppressed .otp
  else if isPureDeposit msg then .Suppressed .deposit_credit
  else
    match firstCandidate STRULES msg with
    | none => .NoMatch
    | some cand =>
      match cand.kind with
      | .Transfer =>
        match fromLeg msg, toLeg msg with
        | some f, some t =>
          if resolvesAny cfg f && resolvesAny cfg t then .Suppressed .internal_transfer
          else .Transaction cand.amount (resolveCurrency msg home) cand.merchant .Transfer
        | _, _ => .Transaction cand.amount (resolveCurrency msg home) cand.merchant .Transfer
      | .Expense =>
        if resolvesWallet cfg cand.merchant then .Suppressed .wallet_topup
        else .Transaction cand.amount (resolveCurrency msg home) cand.merchant .Expense

/-- Syntactic criterion: group 1 is assigned on every successful path of the
regex (conservative: repetitions and options never count). -/
def mc1 : RE → Bool
  | .eps => false
  | .lit _ => false
  | .cls _ => false
  | .eos => false
  | .seq a b => mc1 a || mc1 b
  | .alt a b => mc1 a && mc1 b
  | .star _ _ => false
  | .group n a => n == 1 || mc1 a

/-- A continuation preserves group-1 captures when its output keeps `isSome`
whenever its input captures had it. -/
def presK (k : List Char → Caps → Option Caps) : Prop :=
  ∀ s2 cp2 o, k s2 cp2 = some o → cp2.1.isSome = true → o.1.isSome = true

/-- The default labels of the pattern table are non-empty and within the
50-character bound. -/
def defaultOK (pi : PatternInfo) : Bool :=
  match pi.default_merchant with
  | none => true
  | some d => !(d == "") && decide (d.length ≤ 50)

/-- Placeholder pattern used with `List.getD`. -/
def dummyPat : PatternInfo := ⟨RE.eps, 1, none, none, false⟩

/-- A string has no ASCII lower-case letter. -/
def noLower (l : List Char) : Prop :=
  ∀ c ∈ l, ¬(97 ≤ c.toNat ∧ c.toNat ≤ 122)

/-! ## Concrete scenario data -/

/-- The ownership configuration used by the concrete scenarios, mirroring
`MY_ACCOUNTS` of `config.py` (accounts and wallets) with home currency SAR. -/
def cfg0 : OwnershipConfig :=
  ⟨["3057", "3001", "X3057", "X3001"], ["Barq", "STC Pay", "Urpay", "tiqmo"]⟩

/-- The spec's Arabic purchase scenario message. -/
def arabicMsg : String :=
  "شراء\nبطاقة:9206;مدى-ابل باي\nمبلغ:SAR 114.38\nلدى:SASCO Qen\nفي:25-10-26 23:13"

/-- The spec's internal transfer scenario message. -/
def msgInt : String := "حوالة محلية\nعبر:SAIB\nمبلغ:SAR 5000\nمن:3057\nالى:3001"

/-- The spec's external transfer scenario message (unconfigured recipient). -/
def msgExt : String := "حوالة محلية\nعبر:SAIB\nمبلغ:SAR 5000\nمن:3057\nالى:أحمد الغامدي"

/-- OTP message from the repository's test suite. -/
def otpMsg : String := "Your OTP code is 123456. Do not share this code with anyone."

/-- Deposit message from the repository's test suite. -/
def depositMsg : String := "إيداع مبلغ SAR 5000 في حسابك"

/-- Message on which two rules structurally match: rule 3 captures the amount
token `0`, rule 4 captures `5`. -/
def s0 : String := "paid 0 payment 5 debited for SHOP"

/-- Single-line Arabic purchase matching rule 0. -/
def m5w : String := "شراء مبلغ:SAR 5 لدى:X"

/-- Expected parse of `m5w`. -/
def t5w : ParsedTxn := ⟨5, ("X"), ("expense"), m5w, P0⟩

/-- Expected parse of `spent 9 at X`. -/
def t6w : ParsedTxn := ⟨9, ("X"), ("expense"), ("spent 9 at X"), P3⟩

/-- Expected parse of the padded ATM message. -/
def t9w : ParsedTxn := ⟨5000, ("ATM Withdrawal"), ("expense"), ("ATM withdrawal of Rs 5000"), P8⟩

/-- Expected parse of the padded Uber message. -/
def t10w : ParsedTxn := ⟨mkRat 51 2, ("UBER"), ("expense"), ("Transaction of $25.50 at Uber"), P6⟩

/-- A 51-character merchant whose truncation ends in a stripped character. -/
def longA : String := String.mk (List.replicate 49 'a' ++ ['.', 'b'])

/-! ## Engine lemmas: group 1 participates in every successful match

`_parse_amount` receives `match.group(amount_group)`; were that `None`, the
`re.sub` inside `_parse_amount` would raise a `TypeError` that the
`except (ValueError, AttributeError)` clause does not catch.  The following
lemmas show that for every pattern whose group 1 lies on all match paths
(syntactic criterion `mc1`), a successful search always produces a group-1
capture, so the `TypeError` branch is unreachable from `parse_message`. -/

/-- Setting any group preserves an existing group-1 capture. -/
theorem setG_fst_mono (n : Nat) (v : List Char) (cp : Caps) (h : cp.1.isSome = true) :
    ((setG n v cp).1).isSome = true := by
  unfold setG
  split
  · rfl
  · split
    · exact h
    · exact h

/-- Setting group 1 always yields a group-1 capture. -/
theorem setG_one_fst (v : List Char) (cp : Caps) : ((setG 1 v cp).1).isSome = true := by
  simp [setG]

/-- Every successful result of `mtch` is produced by the continuation, so a
property guaranteed by the continuation holds of the result. -/
theorem mtch_through (P : Caps → Prop) (f : Nat) :
    ∀ r s cp k out, mtch f r s cp k = some out →
      (∀ s2 cp2 o, k s2 cp2 = some o → P o) → P out := by
  induction f with
  | zero => intro r s cp k out h hk; simp [mtch] at h
  | succ f ih =>
    intro r s cp k out h hk
    cases r with
    | eps => exact hk _ _ _ h
    | lit c =>
      cases s with
      | nil => simp [mtch] at h
      | cons d rest =>
        simp only [mtch] at h
        split at h
        · exact hk _ _ _ h
        · simp at h
    | cls kc =>
      cases s with
      | nil => simp [mtch] at h
      | cons d rest =>
        simp only [mtch] at h
        split at h
        · exact hk _ _ _ h
        · simp at h
    | seq a b =>
      simp only [mtch] at h
      refine ih a _ _ _ _ h ?_
      intro s2 cp2 o ho
      exact ih b _ _ _ _ ho hk
    | alt a b =>
      simp only [mtch] at h
      split at h
      · next heq => exact ih a _ _ _ _ (heq.trans h) hk
      · exact ih b _ _ _ _ h hk
    | star a lz =>
      cases lz with
      | true =>
        simp only [mtch] at h
        split at h
        · next heq => exact hk _ _ _ (heq.trans h)
        · refine ih a _ _ _ _ h ?_
          intro s2 cp2 o ho
          simp only [] at ho
          split at ho
          · exact ih (RE.star a true) _ _ _ _ ho hk
          · simp at ho
      | false =>
        simp only [mtch] at h
        split at h
        · next heq =>
          refine ih a _ _ _ _ (heq.trans h) ?_
          intro s2 cp2 o ho
          simp only [] at ho
          split at ho
          · exact ih (RE.star a false) _ _ _ _ ho hk
          · simp at ho
        · exact hk _ _ _ h
    | group n a =>
      simp only [mtch] at h
      refine ih a _ _ _ _ h ?_
      intro s2 cp2 o ho
      exact hk _ _ _ ho
    | eos =>
      simp only [mtch] at h
      split at h
      · exact hk _ _ _ h
      · exact hk _ _ _ h
      · simp at h

/-- Matching preserves an existing group-1 capture through a preserving
continuation. -/
theorem mtch_pres (f : Nat) :
    ∀ r s cp k out, mtch f r s cp k = some out → presK k →
      cp.1.isSome = true → out.1.isSome = true := by
  induction f with
  | zero => intro r s cp k out h hk hcp; simp [mtch] at h
  | succ f ih =>
    intro r s cp k out h hk hcp
    cases r with
    | eps => exact hk _ _ _ h hcp
    | lit c =>
      cases s with
      | nil => simp [mtch] at h
      | cons d rest =>
        simp only [mtch] at h
        split at h
        · exact hk _ _ _ h hcp
        · simp at h
    | cls kc =>
      cases s with
      | nil => simp [mtch] at h
      | cons d rest =>
        simp only [mtch] at h
        split at h
        · exact hk _ _ _ h hcp
        · simp at h
    | seq a b =>
      simp only [mtch] at h
      refine ih a _ _ _ _ h ?_ hcp
      intro s2 cp2 o ho hcp2
      exact ih b _ _ _ _ ho hk hcp2
    | alt a b =>
      simp only [mtch] at h
      split at h
      · next heq => exact ih a _ _ _ _ (heq.trans h) hk hcp
      · exact ih b _ _ _ _ h hk hcp
    | star a lz =>
      cases lz with
      | true =>
        simp only [mtch] at h
        split at h
        · next heq => exact hk _ _ _ (heq.trans h) hcp
        · refine ih a _ _ _ _ h ?_ hcp
          intro s2 cp2 o ho hcp2
          simp only [] at ho
          split at ho
          · exact ih (RE.star a true) _ _ _ _ ho hk hcp2
          · simp at ho
      | false =>
        simp only [mtch] at h
        split at h
        · next heq =>
          refine ih a _ _ _ _ (heq.trans h) ?_ hcp
          intro s2 cp2 o ho hcp2
          simp only [] at ho
          split at ho
          · exact ih (RE.star a false) _ _ _ _ ho hk hcp2
          · simp at ho
        · exact hk _ _ _ h hcp
    | group n a =>
      simp only [mtch] at h
      refine ih a _ _ _ _ h ?_ hcp
      intro s2 cp2 o ho hcp2
      exact hk _ _ _ ho (setG_fst_mono _ _ _ hcp2)
    | eos =>
      simp only [mtch] at h
      split at h
      · exact hk _ _ _ h hcp
      · exact hk _ _ _ h hcp
      · simp at h

/-- A successful match of a regex satisfying `mc1`, through a preserving
continuation, always carries a group-1 capture. -/
theorem mtch_mc1 (f : Nat) :
    ∀ r s cp k out, mtch f r s cp k = some out → presK k →
      mc1 r = true → out.1.isSome = true := by
  induction f with
  | zero => intro r s cp k out h hk hm; simp [mtch] at h
  | succ f ih =>
    intro r s cp k out h hk hm
    cases r with
    | eps => simp [mc1] at hm
    | lit c => simp [mc1] at hm
    | cls kc => simp [mc1] at hm
    | eos => simp [mc1] at hm
    | star a lz => simp [mc1] at hm
    | seq a b =>
      simp only [mtch] at h
      simp only [mc1, Bool.or_eq_true] at hm
      by_cases hb : mc1 b = true
      · refine mtch_through (fun o => o.1.isSome = true) f a _ _ _ _ h ?_
        intro s2 cp2 o ho
        exact ih b _ _ _ _ ho hk hb
      · have ha : mc1 a = true := by
          rcases hm with hm | hm
          · exact hm
          · exact absurd hm hb
        refine ih a _ _ _ _ h ?_ ha
        intro s2 cp2 o ho hcp2
        exact mtch_pres f b _ _ _ _ ho hk hcp2
    | alt a b =>
      simp only [mc1, Bool.and_eq_true] at hm
      simp only [mtch] at h
      split at h
      · next heq => exact ih a _ _ _ _ (heq.trans h) hk hm.1
      · exact ih b _ _ _ _ h hk hm.2
    | group n a =>
      simp only [mc1, Bool.or_eq_true, beq_iff_eq] at hm
      simp only [mtch] at h
      by_cases hn : n = 1
      · subst hn
        refine mtch_through (fun o => o.1.isSome = true) f a _ _ _ _ h ?_
        intro s2 cp2 o ho
        exact hk _ _ _ ho (setG_one_fst _ _)
      · have ha : mc1 a = true := by
          rcases hm with hm | hm
          · exact absurd hm hn
          · exact hm
        refine ih a _ _ _ _ h ?_ ha
        intro s2 cp2 o ho hcp2
        exact hk _ _ _ ho (setG_fst_mono _ _ _ hcp2)

/-- A successful `searchGo` on an `mc1` pattern yields a group-1 capture. -/
theorem searchGo_mc1 (fu : Nat) (r : RE) :
    ∀ s caps, searchGo fu r s = some caps → mc1 r = true → caps.1.isSome = true := by
  intro s
  induction s with
  | nil =>
    intro caps h hm
    simp only [searchGo] at h
    refine mtch_mc1 fu r _ _ _ _ h ?_ hm
    intro s2 cp2 o ho hcp2
    cases ho
    exact hcp2
  | cons c rest ih =>
    intro caps h hm
    simp only [searchGo] at h
    split at h
    · next heq =>
      cases h
      refine mtch_mc1 fu r _ _ _ _ heq ?_ hm
      intro s2 cp2 o ho hcp2
      cases ho
      exact hcp2
    · exact ih caps h hm

/-- A successful `reSearch` on an `mc1` pattern yields a group-1 capture. -/
theorem reSearch_mc1 (r : RE) (s : List Char) (caps : Caps)
    (h : reSearch r s = some caps) (hm : mc1 r = true) : caps.1.isSome = true :=
  searchGo_mc1 (fuelFor s) r s caps h hm

/-! ## Lemmas about the source's parsing loop -/

/-- `_parse_amount` agreement between the exception-explicit and the total
model on a present capture (the `ValueError` of `float` is caught). -/
theorem parse_amountE_ok (s : List Char) :
    parse_amountE (some s) = .ok (parse_amount (some s)) := by
  simp only [parse_amountE, parse_amount, pyFloatE]
  cases pyFloat (stripCur s) with
  | none => rfl
  | some a => rfl

/-- Every pattern of the source satisfies the group-1 criterion and addresses
the amount as group 1. -/
theorem PATTERNS_ok : ∀ pi ∈ PATTERNS, mc1 pi.pattern = true ∧ pi.amount_group = 1 := by
  decide

/-- Per-rule agreement between the exception-explicit and the total loop body:
the matched pattern always captures group 1, so the uncatchable `TypeError`
branch of `_parse_amount` is unreachable. -/
theorem ruleResultE_ok (pi : PatternInfo) (msg : List Char)
    (hm : mc1 pi.pattern = true) (hg : pi.amount_group = 1) :
    ruleResultE pi msg = .ok (ruleResult pi msg) := by
  cases hs : reSearch pi.pattern msg with
  | none => simp only [ruleResult, ruleResultE, hs]
  | some caps =>
    have h1 : caps.1.isSome = true := reSearch_mc1 _ _ _ hs hm
    rcases Option.isSome_iff_exists.mp h1 with ⟨v, hv⟩
    have hgg : getGroup caps pi.amount_group = some v := by
      rw [hg]; simpa [getGroup] using hv
    simp only [ruleResult, ruleResultE, hs, hgg, parse_amountE_ok v]
    cases parse_amount (some v) with
    | none => rfl
    | some a =>
      by_cases hle : a ≤ 0
      · simp [hle]
      · simp [hle]

/-- Loop-level agreement between the exception-explicit and the total loop. -/
theorem tryPatternsE_ok (L : List PatternInfo) (msg : List Char)
    (h : ∀ pi ∈ L, mc1 pi.pattern = true ∧ pi.amount_group = 1) :
    tryPatternsE L msg = .ok (tryPatterns L msg) := by
  induction L with
  | nil => rfl
  | cons pi rest ih =>
    have hpi := h pi (List.mem_cons_self pi rest)
    simp only [tryPatterns, tryPatternsE, ruleResultE_ok pi msg hpi.1 hpi.2]
    cases ruleResult pi msg with
    | none => exact ih (fun q hq => h q (List.mem_cons_of_mem pi hq))
    | some t => rfl

/-- Every successful iteration of the loop body emits a positive amount (the
`continue` guard `amount is None or amount <= 0` is faithful in
`ruleResult`). -/
theorem ruleResult_amount (pi : PatternInfo) (msg : List Char) (t : ParsedTxn)
    (h : ruleResult pi msg = some t) : 0 < t.amount := by
  unfold ruleResult at h
  split at h
  · exact absurd h (by simp)
  · split at h
    · exact absurd h (by simp)
    · split at h
      · exact absurd h (by simp)
      · next hle =>
        cases h
        simpa using lt_of_not_le hle

/-- Every successful iteration of the loop body stores the (stripped) message
it was given as `raw_message`. -/
theorem ruleResult_raw (pi : PatternInfo) (msg : List Char) (t : ParsedTxn)
    (h : ruleResult pi msg = some t) : t.raw_message = String.mk msg := by
  unfold ruleResult at h
  split at h
  · exact absurd h (by simp)
  · split at h
    · exact absurd h (by simp)
    · split at h
      · exact absurd h (by simp)
      · cases h
        rfl

/-- All shipped patterns have admissible default labels. -/
theorem PATTERNS_defaultOK : ∀ pi ∈ PATTERNS, defaultOK pi = true := by
  decide

/-- The normalization chain caps the merchant at 50 characters. -/
theorem cleanCore_len (l : List Char) : (cleanCore l).length ≤ 50 := by
  unfold cleanCore trunc50
  split
  · simpa using min_le_left 50 _
  · omega

/-- `_clean_merchant_name` output is at most 50 characters. -/
theorem cleanG_len (o : Option (List Char)) : (cleanG o).length ≤ 50 := by
  cases o with
  | none => decide
  | some l =>
    show (clean_merchant_name (String.mk l)).length ≤ 50
    unfold clean_merchant_name
    by_cases h : String.mk l = ""
    · rw [if_pos h]; decide
    · rw [if_neg h]; exact cleanCore_len _

/-- `merchant or 'Unknown'` is never empty. -/
theorem pyOr_ne (m : Option String) : pyOr m ("Unknown") ≠ "" := by
  cases m with
  | none => decide
  | some s =>
    show (if (s == "") = true then "Unknown" else s) ≠ ""
    by_cases h : s = ""
    · subst h; decide
    · rw [if_neg (by simpa using h)]; exact h

/-- `merchant or 'Unknown'` stays within the 50-character bound when any
present merchant does. -/
theorem pyOr_len (m : Option String) (h : ∀ s, m = some s → s.length ≤ 50) :
    (pyOr m ("Unknown")).length ≤ 50 := by
  cases m with
  | none => decide
  | some s =>
    show (if (s == "") = true then "Unknown" else s).length ≤ 50
    by_cases hb : s = ""
    · subst hb; decide
    · rw [if_neg (by simpa using hb)]; exact h s rfl

/-- Every emitted merchant is non-empty and at most 50 characters long,
provided the rule's default label is admissible. -/
theorem ruleResult_merchant (pi : PatternInfo) (msg : List Char) (t : ParsedTxn)
    (hd : defaultOK pi = true) (h : ruleResult pi msg = some t) :
    t.merchant ≠ "" ∧ t.merchant.length ≤ 50 := by
  unfold ruleResult at h
  split at h
  · exact absurd h (by simp)
  · split at h
    · exact absurd h (by simp)
    · split at h
      · exact absurd h (by simp)
      · cases h
        simp only []
        constructor
        · exact pyOr_ne _
        · refine pyOr_len _ ?_
          intro s hs
          split at hs
          · -- default-label branch (merchant falsy)
            cases hdm : pi.default_merchant with
            | none =>
              rw [hdm] at hs
              cases hmg : pi.merchant_group with
              | none => rw [hmg] at hs; simp at hs
              | some g =>
                rw [hmg] at hs
                simp only [Option.map] at hs
                cases hs
                exact cleanG_len _
            | some d =>
              rw [hdm] at hs
              cases hs
              unfold defaultOK at hd
              rw [hdm] at hd
              simp only [Bool.and_eq_true, Bool.not_eq_eq_eq_not, Bool.not_true,
                decide_eq_true_eq] at hd
              exact hd.2
          · -- truthy captured merchant
            cases hmg : pi.merchant_group with
            | none => rw [hmg] at hs; simp at hs
            | some g =>
              rw [hmg] at hs
              simp only [Option.map] at hs
              cases hs
              exact cleanG_len _

/-- The loop returns a result produced by one of its rules. -/
theorem tryPatterns_elim : ∀ (L : List PatternInfo) (msg : List Char) (t : ParsedTxn),
    tryPatterns L msg = some t → ∃ pi, pi ∈ L ∧ ruleResult pi msg = some t := by
  intro L
  induction L with
  | nil => intro msg t h; simp [tryPatterns] at h
  | cons pi rest ih =>
    intro msg t h
    simp only [tryPatterns] at h
    split at h
    · next heq =>
      cases h
      exact ⟨pi, List.mem_cons_self pi rest, heq⟩
    · rcases ih msg t h with ⟨q, hq, hr⟩
      exact ⟨q, List.mem_cons_of_mem pi hq, hr⟩

/-- First-firing-rule determinism of the loop: if every earlier rule yields
nothing (no structural match, or an invalid amount) and rule `i` fires, the
loop's answer is rule `i`'s. -/
theorem tryPatterns_first : ∀ (L : List PatternInfo) (msg : List Char) (i : Nat) (t : ParsedTxn),
    i < L.length → (∀ j, j < i → ruleResult (L.getD j dummyPat) msg = none) →
    ruleResult (L.getD i dummyPat) msg = some t → tryPatterns L msg = some t := by
  intro L
  induction L with
  | nil => intro msg i t hi; simp at hi
  | cons pi rest ih =>
    intro msg i t hi hearlier hfire
    cases i with
    | zero =>
      simp only [List.getD_cons_zero] at hfire
      simp only [tryPatterns, hfire]
    | succ i =>
      have h0 : ruleResult pi msg = none := by
        have := hearlier 0 (Nat.succ_pos i)
        simpa [List.getD_cons_zero] using this
      simp only [tryPatterns, h0]
      refine ih msg i t (by simpa using hi) ?_ ?_
      · intro j hj
        have := hearlier (j + 1) (Nat.succ_lt_succ hj)
        simpa [List.getD_cons_succ] using this
      · simpa [List.getD_cons_succ] using hfire

/-! ## Lemmas about the merchant normalizer (`_clean_merchant_name`) -/

/-- Characters produced by `Char.ofNat` on valid scalar values keep their
numeric value. -/
theorem toNat_ofNat_valid (n : Nat) (h : n < 55296) : (Char.ofNat n).toNat = n := by
  unfold Char.ofNat
  rw [dif_pos (Or.inl h)]
  rfl

/-- `Char.toUpper` never outputs an ASCII lower-case letter. -/
theorem toUpper_not_lower (c : Char) :
    ¬(97 ≤ (Char.toUpper c).toNat ∧ (Char.toUpper c).toNat ≤ 122) := by
  by_cases h : 97 ≤ c.toNat ∧ c.toNat ≤ 122
  · have he : Char.toUpper c = Char.ofNat (c.toNat - 32) := by
      unfold Char.toUpper
      rw [if_pos ⟨h.1, h.2⟩]
    rw [he, toNat_ofNat_valid _ (by omega)]
    omega
  · have he : Char.toUpper c = c := by
      unfold Char.toUpper
      rw [if_neg (fun hc => h ⟨hc.1, hc.2⟩)]
    rw [he]
    exact h

/-- `Char.toUpper` fixes characters that are not ASCII lower-case. -/
theorem toUpper_fix (c : Char) (h : ¬(97 ≤ c.toNat ∧ c.toNat ≤ 122)) :
    Char.toUpper c = c := by
  unfold Char.toUpper
  rw [if_neg (fun hc => h ⟨hc.1, hc.2⟩)]

/-- Upper-cased text has no lower-case letters. -/
theorem upperA_noLower (l : List Char) : noLower (upperA l) := by
  intro c hc
  rcases List.mem_map.mp hc with ⟨d, _, rfl⟩
  exact toUpper_not_lower d

/-- Upper-casing fixes lower-case-free text. -/
theorem upperA_fix (l : List Char) (h : noLower l) : upperA l = l := by
  induction l with
  | nil => rfl
  | cons c r ih =>
    have hc := h c (List.mem_cons_self c r)
    have hr : noLower r := fun d hd => h d (List.mem_cons_of_mem c hd)
    simp only [upperA, List.map_cons]
    rw [show Char.toUpper c = c from toUpper_fix c hc]
    have := ih hr
    simp only [upperA] at this
    rw [this]

/-- The truncation output keeps the no-lower-case property. -/
theorem trunc50_noLower (l : List Char) (h : noLower l) : noLower (trunc50 l) := by
  unfold trunc50
  split
  · intro c hc; exact h c (List.mem_of_mem_take hc)
  · exact h

/-- The normalization output has no lower-case letters. -/
theorem cleanCore_noLower (l : List Char) : noLower (cleanCore l) := by
  unfold cleanCore
  exact trunc50_noLower _ (upperA_noLower _)

/-- Membership transfer out of `dropWhile`. -/
theorem mem_of_mem_dropWhile {p : Char → Bool} :
    ∀ {l : List Char} {c : Char}, c ∈ l.dropWhile p → c ∈ l := by
  intro l
  induction l with
  | nil => intro c h; simpa using h
  | cons a r ih =>
    intro c h
    by_cases hp : p a = true
    · simp only [List.dropWhile, hp] at h
      exact List.mem_cons_of_mem a (ih h)
    · simp only [List.dropWhile, Bool.eq_false_iff.mpr hp] at h
      exact h

/-- The date-suffix pattern `\s+on\s+\d{2}.*` cannot match at any position of
lower-case-free text (its literal `on` is lower-case and, due to the
`count`/`flags` confusion, matched case-sensitively). -/
theorem sub2At_noLower (l : List Char) (h : noLower l) : sub2At l = none := by
  unfold sub2At
  split
  · rfl
  · split
    · next r2 heq =>
      exfalso
      have hd : 'o' ∈ l.dropWhile isPySpace := by
        rw [heq]
        exact List.mem_cons_self _ _
      exact h 'o' (mem_of_mem_dropWhile hd) (by decide)
    · rfl

/-- The date-suffix substitution fixes lower-case-free text. -/
theorem sub2Go_fix (f : Nat) : ∀ (cnt : Nat) (l : List Char), noLower l → sub2Go f cnt l = l := by
  induction f with
  | zero => intro cnt l _; cases cnt <;> cases l <;> rfl
  | succ f ih =>
    intro cnt l h
    cases cnt with
    | zero => cases l <;> rfl
    | succ cnt =>
      cases l with
      | nil => rfl
      | cons c r =>
        simp only [sub2Go, sub2At_noLower _ h]
        rw [ih (cnt + 1) r (fun d hd => h d (List.mem_cons_of_mem c hd))]

/-- `sub2` fixes lower-case-free text. -/
theorem sub2_fix (l : List Char) (h : noLower l) : sub2 l = l :=
  sub2Go_fix _ _ _ h

/-- Truncation fixes text within the bound. -/
theorem trunc50_fix (l : List Char) (h : l.length ≤ 50) : trunc50 l = l := by
  unfold trunc50
  rw [if_neg (by omega)]

/-! ## Claim theorems -/

/-- C1.  For a transfer-kind candidate whose captured from/to legs both
resolve (case-insensitive containment) to configured ownership identifiers,
the extraction entry point suppresses the message as an internal transfer;
if either leg does not resolve, it returns a `Transfer` transaction. -/
theorem extract_internal_transfer_filter (cfg : OwnershipConfig) (home : String)
    (message : String) (cand : Candidate) (f t : List Char)
    (hotp : hasOTPCue (pyStrip message.data) = false)
    (hdep : isPureDeposit (pyStrip message.data) = false)
    (hcand : firstCandidate STRULES (pyStrip message.data) = some cand)
    (hkind : cand.kind = .Transfer)
    (hf : fromLeg (pyStrip message.data) = some f)
    (ht : toLeg (pyStrip message.data) = some t) :
    (resolvesAny cfg f = true ∧ resolvesAny cfg t = true →
      extract cfg home message = .Suppressed .internal_transfer) ∧
    ((resolvesAny cfg f = false ∨ resolvesAny cfg t = false) →
      extract cfg home message =
        .Transaction cand.amount (resolveCurrency (pyStrip message.data) home)
          cand.merchant .Transfer) := by
  constructor
  · rintro ⟨h1, h2⟩
    unfold extract
    simp [hotp, hdep, hcand, hkind, hf, ht, h1, h2]
  · intro hor
    have hand : (resolvesAny cfg f && resolvesAny cfg t) = false := by
      rcases hor with hx | hx <;> simp [hx]
    unfold extract
    simp [hotp, hdep, hcand, hkind, hf, ht, hand]

/-- C1 witness: the spec's internal transfer scenario is suppressed with the
configured accounts, and the same message with an unconfigured recipient
yields a `Transfer` transaction. -/
theorem extract_internal_transfer_filter_witness :
    extract cfg0 ("SAR") msgInt = .Suppressed .internal_transfer ∧
    extract cfg0 ("SAR") msgExt =
      .Transaction 5000 ("SAR") ("Transfer") .Transfer := by
  constructor
  · exact (extract_internal_transfer_filter cfg0 ("SAR") msgInt
      ⟨5000, ("Transfer"), .Transfer⟩ (("3057").data) (("3001").data)
      (by decide) (by decide) (by decide) (by decide) (by decide) (by decide)).1
      ⟨by decide, by decide⟩
  · exact ((extract_internal_transfer_filter cfg0 ("SAR") msgExt
      ⟨5000, ("Transfer"), .Transfer⟩ (("3057").data) (("أحمد الغامدي").data)
      (by decide) (by decide) (by decide) (by decide) (by decide) (by decide)).2
      (Or.inr (by decide))).trans (by decide)

/-- C2.  A message carrying an OTP/verification cue is suppressed with reason
`otp` by the extraction entry point and never yields a transaction,
regardless of any amount it contains. -/
theorem extract_otp_suppressed (cfg : OwnershipConfig) (home : String) (message : String)
    (h : hasOTPCue (pyStrip message.data) = true) :
    extract cfg home message = .Suppressed .otp ∧
    ∀ a c m k, extract cfg home message ≠ .Transaction a c m k := by
  have he : extract cfg home message = .Suppressed .otp := by
    unfold extract
    simp [h]
  exact ⟨he, fun a c m k hc => by rw [he] at hc; cases hc⟩

/-- C2 witness: the repository's English OTP test message (which contains the
amount-like code 123456) is suppressed as `otp`. -/
theorem extract_otp_suppressed_witness :
    extract cfg0 ("SAR") otpMsg = .Suppressed .otp :=
  (extract_otp_suppressed cfg0 ("SAR") otpMsg (by decide)).1

/-- C3.  Every transaction the entry point emits carries the message's
explicit currency marker when one is present and the configured home currency
otherwise; the Arabic purchase scenario yields amount 114.38, currency SAR,
merchant SASCO QEN, kind Expense, and a marker-free purchase falls back to
the home default. -/
theorem extract_currency_resolution :
    (∀ (cfg : OwnershipConfig) (home : String) (message : String) (a : ℚ) (c m : String)
        (k : TxnKind), extract cfg home message = .Transaction a c m k →
        c = (markerOf (pyStrip message.data)).getD home) ∧
    extract cfg0 ("SAR") arabicMsg =
      .Transaction (mkRat 5719 50) ("SAR") ("SASCO QEN") .Expense ∧
    extract cfg0 ("USD") ("spent 50 at STARBUCKS") =
      .Transaction 50 ("USD") ("STARBUCKS") .Expense := by
  refine ⟨?_, by decide, by decide⟩
  intro cfg home message a c m k h
  simp only [extract] at h
  split at h
  · exact absurd h (by simp)
  · split at h
    · exact absurd h (by simp)
    · split at h
      · exact absurd h (by simp)
      · split at h
        · split at h
          · split at h
            · exact absurd h (by simp)
            · injection h with h1 h2 h3 h4
              exact h2.symm
          · injection h with h1 h2 h3 h4
            exact h2.symm
        · split at h
          · exact absurd h (by simp)
          · injection h with h1 h2 h3 h4
            exact h2.symm

/-- C3 witness: the general currency law instantiated at the Arabic purchase
scenario. -/
theorem extract_currency_resolution_witness :
    ("SAR" : String) = (markerOf (pyStrip arabicMsg.data)).getD ("SAR") :=
  extract_currency_resolution.1 cfg0 ("SAR") arabicMsg (mkRat 5719 50) ("SAR")
    ("SASCO QEN") .Expense (by decide)

/-- C4.  A pure deposit/credit/incoming-funds notification with no
purchase/transfer verb is excluded by the entry point (suppressed as
`deposit_credit`) and never yields a transaction. -/
theorem extract_pure_deposit_excluded (cfg : OwnershipConfig) (home : String)
    (message : String)
    (h1 : hasOTPCue (pyStrip message.data) = false)
    (h2 : isPureDeposit (pyStrip message.data) = true) :
    extract cfg home message = .Suppressed .deposit_credit ∧
    ∀ a c m k, extract cfg home message ≠ .Transaction a c m k := by
  have he : extract cfg home message = .Suppressed .deposit_credit := by
    unfold extract
    simp [h1, h2]
  exact ⟨he, fun a c m k hc => by rw [he] at hc; cases hc⟩

/-- C4 witness: the repository's Arabic deposit test message is excluded. -/
theorem extract_pure_deposit_excluded_witness :
    extract cfg0 ("SAR") depositMsg = .Suppressed .deposit_credit :=
  (extract_pure_deposit_excluded cfg0 ("SAR") depositMsg (by decide) (by decide)).1

/-- C5 counterexample.  On `s0`, rule 3 (`spent|paid|...`) structurally
matches — and no earlier rule does — yet the emitted result carries rule 4's
pattern and captures, because rule 3's captured amount token `0` is invalid
and the loop `continue`s: the result is not determined by the earliest
structurally matching rule. -/
theorem parse_first_match_counterexample :
    (reSearch P3 (pyStrip s0.data)).isSome = true ∧
    reSearch P0 (pyStrip s0.data) = none ∧
    reSearch P1 (pyStrip s0.data) = none ∧
    reSearch P2 (pyStrip s0.data) = none ∧
    parse_message s0 = some ⟨5, ("SHOP"), ("expense"), s0, P4⟩ ∧
    P4 ≠ P3 := by
  decide

/-- C5 (amended).  The pattern loop is deterministic and declaration-ordered
over *firing* rules: if every rule before index `i` either fails to match
structurally or captures an invalid (missing/zero/negative) amount, and rule
`i` fires, then `parse_message` returns exactly rule `i`'s result. -/
theorem parse_first_firing_rule_wins (message : String) (i : Nat) (t : ParsedTxn)
    (hne : message ≠ "")
    (hi : i < PATTERNS.length)
    (hearlier : ∀ j, j < i → ruleResult (PATTERNS.getD j dummyPat) (pyStrip message.data) = none)
    (hfire : ruleResult (PATTERNS.getD i dummyPat) (pyStrip message.data) = some t) :
    parse_message message = some t := by
  unfold parse_message
  rw [if_neg hne]
  exact tryPatterns_first PATTERNS _ i t hi hearlier hfire

/-- C5 witness: rule 0 fires on a single-line Arabic purchase and determines
the result. -/
theorem parse_first_firing_rule_wins_witness : parse_message m5w = some t5w :=
  parse_first_firing_rule_wins m5w 0 t5w (by decide) (by decide)
    (fun j hj => absurd hj (by omega)) (by decide)

/-- C6.  Every transaction `parse_message` emits has a strictly positive
amount, and the amount tokens `0` and `-5.00` are rejected by
`_parse_amount`, so a message whose captured amount is one of them can never
contribute a transaction through its rule. -/
theorem parse_amount_positive_invariant :
    (∀ (message : String) (t : ParsedTxn), parse_message message = some t → 0 < t.amount) ∧
    parse_amount (some (("0").data)) = none ∧
    parse_amount (some (("-5.00").data)) = none := by
  refine ⟨?_, by decide, by decide⟩
  intro message t h
  unfold parse_message at h
  split at h
  · exact absurd h (by simp)
  · rcases tryPatterns_elim _ _ _ h with ⟨pi, _, hr⟩
    exact ruleResult_amount pi _ t hr

/-- C6 witness: the invariant instantiated at a concrete parsed message. -/
theorem parse_amount_positive_invariant_witness : 0 < t6w.amount :=
  parse_amount_positive_invariant.1 ("spent 9 at X") t6w (by decide)

/-- C7.  The public entry point never raises: the exception-explicit model of
`parse_message` (where `float` raises `ValueError`, caught, and a missing
group-1 capture would raise an uncaught `TypeError`) returns `.ok` of the
total function's value on every input string. -/
theorem parse_message_never_raises (message : String) :
    parse_messageE message = .ok (parse_message message) := by
  unfold parse_message parse_messageE
  by_cases hm : message = ""
  · rw [if_pos hm, if_pos hm]
  · rw [if_neg hm, if_neg hm]
    exact tryPatternsE_ok PATTERNS _ PATTERNS_ok

/-- C8 counterexample.  `_clean_merchant_name` is not idempotent: `"."`
normalizes to the empty string, which re-normalizes to `"Unknown"`; a
parenthesized group whose removal exposes a new group normalizes to `"()"`,
which re-normalizes to `""`; and a truncation that ends in `"."` loses that
character on a second pass. -/
theorem clean_merchant_not_idempotent :
    clean_merchant_name (clean_merchant_name (".")) ≠ clean_merchant_name (".") ∧
    clean_merchant_name (clean_merchant_name ("( \n (a) )")) ≠ clean_merchant_name ("( \n (a) )") ∧
    clean_merchant_name (clean_merchant_name longA) ≠ clean_merchant_name longA := by
  decide

/-- C8 (amended).  Merchant normalization is idempotent on every non-empty
input whose normalized form is non-empty, parenthesis-stable and
punctuation-stable: re-normalizing such a normalized merchant returns it
unchanged (upper-casing, the case-sensitive date-suffix rule and the
50-character truncation are automatically stable on normalizer output). -/
theorem clean_merchant_idempotent_on_normalized (s : String)
    (h0 : s ≠ "") (h1 : clean_merchant_name s ≠ "")
    (h2 : sub1 ((clean_merchant_name s).data) = (clean_merchant_name s).data)
    (h3 : strip4 ((clean_merchant_name s).data) = (clean_merchant_name s).data) :
    clean_merchant_name (clean_merchant_name s) = clean_merchant_name s := by
  have ht : clean_merchant_name s = String.mk (cleanCore s.data) := by
    unfold clean_merchant_name
    rw [if_neg h0]
  have htd : (clean_merchant_name s).data = cleanCore s.data := by rw [ht]
  have hnl : noLower ((clean_merchant_name s).data) := by
    rw [htd]; exact cleanCore_noLower _
  have hlen : ((clean_merchant_name s).data).length ≤ 50 := by
    rw [htd]; exact cleanCore_len _
  set u := clean_merchant_name s with hu
  unfold clean_merchant_name
  rw [if_neg h1]
  have hc : cleanCore u.data = u.data := by
    unfold cleanCore
    rw [h2, sub2_fix _ hnl, h3, upperA_fix _ hnl, trunc50_fix _ hlen]
  rw [hc]

/-- C8 witness: the amended idempotence at a normalized merchant. -/
theorem clean_merchant_idempotent_on_normalized_witness :
    clean_merchant_name (clean_merchant_name ("sasco qen")) = clean_merchant_name ("sasco qen") :=
  clean_merchant_idempotent_on_normalized ("sasco qen") (by decide) (by decide)
    (by decide) (by decide)

/-- C9.  The merchant of every emitted result is a non-empty string of at
most 50 characters: captured merchants pass through the truncating
normalizer, absent merchants fall back to the rule's default label or the
`"Unknown"` sentinel, and `merchant or 'Unknown'` excludes the empty
string. -/
theorem parse_merchant_bounds (message : String) (t : ParsedTxn)
    (h : parse_message message = some t) :
    t.merchant ≠ "" ∧ t.merchant.length ≤ 50 := by
  unfold parse_message at h
  split at h
  · exact absurd h (by simp)
  · rcases tryPatterns_elim _ _ _ h with ⟨pi, hmem, hr⟩
    exact ruleResult_merchant pi _ t (PATTERNS_defaultOK pi hmem) hr

/-- C9 witness: the ATM message emits the default label `ATM Withdrawal`. -/
theorem parse_merchant_bounds_witness : t9w.merchant ≠ "" ∧ t9w.merchant.length ≤ 50 :=
  parse_merchant_bounds (" ATM withdrawal of Rs 5000 ") t9w (by decide)

/-- C10.  The `raw_message` of every result equals the input with leading and
trailing whitespace stripped — not necessarily the original input, as the
padded concrete message shows. -/
theorem parse_raw_message_stripped :
    (∀ (message : String) (t : ParsedTxn), parse_message message = some t →
      t.raw_message = String.mk (pyStrip message.data)) ∧
    parse_message ("  Transaction of $25.50 at Uber  ") = some t10w ∧
    t10w.raw_message ≠ ("  Transaction of $25.50 at Uber  ") := by
  refine ⟨?_, by decide, by decide⟩
  intro message t h
  unfold parse_message at h
  split at h
  · exact absurd h (by simp)
  · rcases tryPatterns_elim _ _ _ h with ⟨pi, _, hr⟩
    exact ruleResult_raw pi _ t hr

/-- C10 witness: the law instantiated at the padded message. -/
theorem parse_raw_message_stripped_witness :
    t10w.raw_message = String.mk (pyStrip ("  Transaction of $25.50 at Uber  ").data) :=
  parse_raw_message_stripped.1 ("  Transaction of $25.50 at Uber  ") t10w (by decide)
